import Mathlib

/-!
Verification development for the fluxnova-temporal-observability CDC
connector.  The Go sources are shallowly embedded as pure Lean functions:

* `internal/fluxnova/poller.go` → `Poll`, `Poller`, `ProcessEvent`;
* `internal/pipeline/pipeline.go` → `publishEvents`, `pipelinePoll`, `Run`;
* `internal/kafka/producer.go` → send outcomes abstracted as `String → Bool`
  success functions (the broker is an external collaborator);
* `demo/worker/main.go` → `handleTaskResult`, `completeTask`, `dispatchTask`,
  `dispatchBatch`.

The Fluxnova REST client (`internal/fluxnova/client.go`) and the demo
activity implementations (`demo/workflow/activities.go`) are not present in
the repository snapshot; they are modelled from the spec as abstract
response functions (see `Client` and `Activities`).  Timestamps are `Int`;
`time.Parse` of the engine's layout is an abstract `String → Option Int`
parameter.
-/

/-- Historic process instance as returned by the engine's history query.
Modelled from the spec: the History Client's process-instance payload
(`internal/fluxnova/client.go` is absent from the snapshot); fields are the
ones the poller reads (`proc.ID`, `proc.ProcessDefinitionKey`,
`proc.BusinessKey`, `proc.State`, `proc.StartTime`, `proc.EndTime`,
`proc.DurationInMillis`). -/
structure HistoricProcessInstance where
  id : String
  processDefinitionKey : String
  businessKey : Option String
  state : String
  startTime : String
  endTime : Option String
  durationInMillis : Option Int
deriving DecidableEq, Repr

/-- Historic activity instance.  Modelled from the spec: the History
Client's activity payload; fields are the ones `pipeline.go` reads. -/
structure HistoricActivityInstance where
  id : String
  processInstanceID : String
  activityID : String
  activityName : String
  activityType : String
  executionID : String
  taskID : Option String
  assignee : Option String
  startTime : String
  endTime : Option String
  durationInMillis : Option Int
  canceled : Bool
deriving DecidableEq, Repr

/-- Historic variable instance.  Modelled from the spec: the History
Client's variable payload; the poller reads `v.Name` and `v.Value` (the Go
`any` value is abstracted as `String`). -/
structure HistoricVariableInstance where
  name : String
  value : String
deriving DecidableEq, Repr

/-- ProcessEvent from `poller.go`: one CDC snapshot of a process instance.
`variables` is `none` when the variable sub-query failed (Go `nil` map) and
`some m` when it succeeded; a failed activity sub-query leaves `activities`
as the empty list (Go `nil` slice). -/
structure ProcessEvent where
  eventType : String
  processInstanceID : String
  processDefinition : String
  businessKey : Option String
  state : String
  startTime : String
  endTime : Option String
  durationMillis : Option Int
  activities : List HistoricActivityInstance
  Variables : Option (List (String × String))
  timestamp : Int
deriving DecidableEq, Repr

/-- Modelled from the spec: the pull-only History Client
(`internal/fluxnova/client.go` is absent from the snapshot).  Each remote
endpoint is abstracted as a response function returning either a decoded
payload or an error; `ping` is the startup connectivity check (`none`
means reachable, `some e` the connection error). -/
structure Client where
  getHistoricProcessInstances : Option Int → Nat → Except String (List HistoricProcessInstance)
  getHistoricActivityInstances : String → Except String (List HistoricActivityInstance)
  getHistoricVariableInstances : String → Except String (List HistoricVariableInstance)
  ping : Option String

/-- Poller state from `poller.go`: batch size and the watermark
(`lastPollTime`, `none` until first successful advance). -/
structure Poller where
  batchSize : Nat
  lastPollTime : Option Int
deriving DecidableEq, Repr

/-- Go map write `event.Variables[v.Name] = v.Value`: replace an existing
binding for the key, otherwise append it. -/
def mapInsert (m : List (String × String)) (k v : String) : List (String × String) :=
  if m.any (fun p => p.1 == k) then
    m.map (fun p => if p.1 == k then (k, v) else p)
  else
    m ++ [(k, v)]

/-- The variable loop of `Poll`: build the name → value map from the
variable instances in order (last write per name wins, as for a Go map). -/
def varsToMap (vs : List HistoricVariableInstance) : List (String × String) :=
  vs.foldl (fun m v => mapInsert m v.name v.value) []

/-- Event construction for one process instance inside the `Poll` loop:
base fields copied from the instance, activities from the activity
sub-query (empty on failure), variables from the variable sub-query
(absent on failure), `timestamp` = `time.Now()` (the `now` parameter). -/
def buildEvent (client : Client) (now : Int) (proc : HistoricProcessInstance) : ProcessEvent :=
  { eventType := "ProcessInstance"
    processInstanceID := proc.id
    processDefinition := proc.processDefinitionKey
    businessKey := proc.businessKey
    state := proc.state
    startTime := proc.startTime
    endTime := proc.endTime
    durationMillis := proc.durationInMillis
    activities :=
      match client.getHistoricActivityInstances proc.id with
      | Except.ok acts => acts
      | Except.error _ => []
    Variables :=
      match client.getHistoricVariableInstances proc.id with
      | Except.ok vs => some (varsToMap vs)
      | Except.error _ => none
    timestamp := now }

/-- Watermark update at the end of one `Poll` loop iteration:
`time.Parse` the instance's start time (skip the update on parse failure),
then advance if the watermark is nil or the parsed time is strictly
after it. -/
def wmAdvance (parse : String → Option Int) (wm : Option Int) (proc : HistoricProcessInstance) : Option Int :=
  match parse proc.startTime with
  | none => wm
  | some t =>
    match wm with
    | none => some t
    | some w => if w < t then some t else some w

/-- State threaded through the `Poll` loop: events appended so far and the
current value of `p.lastPollTime`. -/
structure PollState where
  events : List ProcessEvent
  lastPollTime : Option Int
deriving DecidableEq, Repr

/-- One iteration of the `Poll` loop body for instance `proc`. -/
def pollStep (client : Client) (parse : String → Option Int) (now : Int)
    (s : PollState) (proc : HistoricProcessInstance) : PollState :=
  { events := s.events ++ [buildEvent client now proc]
    lastPollTime := wmAdvance parse s.lastPollTime proc }

/-- Intermediate states of the `Poll` loop: the state before each
iteration and the final state (instrumentation of the `foldl`). -/
def pollStates (client : Client) (parse : String → Option Int) (now : Int)
    (s : PollState) : List HistoricProcessInstance → List PollState
  | [] => [s]
  | proc :: rest => s :: pollStates client parse now (pollStep client parse now s proc) rest

/-- Result of one `Poll` call: the returned events, the poller after the
call (the Go method mutates its receiver), and the returned error. -/
structure PollResult where
  events : List ProcessEvent
  poller : Poller
  err : Option String
deriving DecidableEq, Repr

/-- `Poll` from `poller.go`: fetch the next batch of process instances
(error aborts the call with the poller untouched), return immediately on
an empty batch, otherwise run the loop that builds one event per instance
and advances the watermark. -/
def Poll (client : Client) (parse : String → Option Int) (now : Int) (p : Poller) : PollResult :=
  match client.getHistoricProcessInstances p.lastPollTime p.batchSize with
  | Except.error e => { events := [], poller := p, err := some e }
  | Except.ok procs =>
    if procs.isEmpty then
      { events := [], poller := p, err := none }
    else
      let final := procs.foldl (pollStep client parse now) { events := [], lastPollTime := p.lastPollTime }
      { events := final.events
        poller := { p with lastPollTime := final.lastPollTime }
        err := none }

/-- Watermark order: `none` (no checkpoint yet) is below everything. -/
def wmLE : Option Int → Option Int → Bool
  | none, _ => true
  | some _, none => false
  | some a, some b => decide (a ≤ b)

/-- Strict watermark order: an advance from `none` to a concrete time
counts as a strict advance. -/
def wmLT : Option Int → Option Int → Bool
  | none, none => false
  | none, some _ => true
  | some _, none => false
  | some a, some b => decide (a < b)
/-- Folding the per-instance watermark advance over a max step on the
parseable start times only. -/
def wmMaxStep (wm : Option Int) (t : Int) : Option Int :=
  match wm with
  | none => some t
  | some w => some (max w t)


/-- Field value inside a broker record (`map[string]any` in `pipeline.go`):
the record fields are strings, optional strings, optional integers,
booleans, or the variables map. -/
inductive RVal where
  | s (v : String)
  | os (v : Option String)
  | oi (v : Option Int)
  | b (v : Bool)
  | vm (v : Option (List (String × String)))
deriving DecidableEq, Repr

/-- A broker record: field name → value (the Go map is represented as an
association list in source text order; lookup is by name). -/
abbrev Record := List (String × RVal)

/-- Lookup of a record field by name (first binding wins; record builders
below never repeat a name). -/
def recLookup (r : Record) (k : String) : Option RVal :=
  (r.find? (fun p => p.1 == k)).map (fun p => p.2)

/-- Length of the Go `event.Variables` map (`len` of a `nil` map is 0). -/
def varsLen : Option (List (String × String)) → Nat
  | none => 0
  | some m => m.length

/-- Insertion into a list of variable bindings sorted by name. -/
def insertSortedVar (p : String × String) : List (String × String) → List (String × String)
  | [] => [p]
  | q :: rest => if p.1 ≤ q.1 then p :: q :: rest else q :: insertSortedVar p rest

/-- Variable bindings sorted by name, as `encoding/json` sorts map keys. -/
def sortVars (m : List (String × String)) : List (String × String) :=
  m.foldr insertSortedVar []

/-- Models `json.Marshal(event.Variables)`: a deterministic JSON-like
rendering of the variables map with keys sorted (string escaping is not
modelled; the claims only compare serialized snapshots built by this same
function). -/
def serializeVars (m : List (String × String)) : String :=
  "\x7b" ++ String.intercalate ","
    ((sortVars m).map (fun p => "\"" ++ p.1 ++ "\":\"" ++ p.2 ++ "\"")) ++ "\x7d"

/-- The process-level record built in `pipeline.poll` for one event, keyed
fields included (`_id` and `_valid_from` as in the sink contract). -/
def processRecord (event : ProcessEvent) : Record :=
  [("_id", RVal.s event.processInstanceID),
   ("process_instance_id", RVal.s event.processInstanceID),
   ("process_definition_key", RVal.s event.processDefinition),
   ("business_key", RVal.os event.businessKey),
   ("state", RVal.s event.state),
   ("start_time", RVal.s event.startTime),
   ("end_time", RVal.os event.endTime),
   ("duration_millis", RVal.oi event.durationMillis),
   ("variables", RVal.vm event.Variables),
   ("_valid_from", RVal.s event.startTime)]

/-- The activity-level record built in `pipeline.poll` for one activity of
`event`; the serialized parent variables are attached only when the
parent's variable map is non-empty (`len(event.Variables) > 0`). -/
def activityRecord (event : ProcessEvent) (activity : HistoricActivityInstance) : Record :=
  let base : Record :=
    [("_id", RVal.s activity.id),
     ("process_instance_id", RVal.s activity.processInstanceID),
     ("activity_id", RVal.s activity.activityID),
     ("activity_name", RVal.s activity.activityName),
     ("activity_type", RVal.s activity.activityType),
     ("execution_id", RVal.s activity.executionID),
     ("task_id", RVal.os activity.taskID),
     ("assignee", RVal.os activity.assignee),
     ("start_time", RVal.s activity.startTime),
     ("end_time", RVal.os activity.endTime),
     ("duration_millis", RVal.oi activity.durationInMillis),
     ("canceled", RVal.b activity.canceled),
     ("_valid_from", RVal.s activity.startTime)]
  if 0 < varsLen event.Variables then
    base ++ [("process_variables", RVal.s (serializeVars (event.Variables.getD [])))]
  else
    base

/-- Broker-visible outcome of the publish loop of one cycle: records whose
send succeeded and keys whose send failed, for each of the two topics. -/
structure PublishOutcome where
  procsSent : List (String × Record)
  actsSent : List (String × Record)
  procsFailed : List String
  actsFailed : List String
deriving DecidableEq, Repr

/-- The inner activity loop of `pipeline.poll`: send one activity record
per activity; a failed send is logged and the loop continues. -/
def publishActivities (actSend : String → Bool) (event : ProcessEvent)
    (acc : PublishOutcome) : PublishOutcome :=
  event.activities.foldl
    (fun acc a =>
      if actSend a.id then
        { acc with actsSent := acc.actsSent ++ [(a.id, activityRecord event a)] }
      else
        { acc with actsFailed := acc.actsFailed ++ [a.id] })
    acc

/-- The body of the `pipeline.poll` event loop: send the process record
first; on failure, log and `continue` (skipping this event's activities);
on success, send the activity records. -/
def publishEvent (procSend actSend : String → Bool) (acc : PublishOutcome)
    (event : ProcessEvent) : PublishOutcome :=
  if procSend event.processInstanceID then
    publishActivities actSend event
      { acc with procsSent := acc.procsSent ++ [(event.processInstanceID, processRecord event)] }
  else
    { acc with procsFailed := acc.procsFailed ++ [event.processInstanceID] }

/-- Empty publish outcome (start of a cycle). -/
def emptyOutcome : PublishOutcome :=
  { procsSent := [], actsSent := [], procsFailed := [], actsFailed := [] }

/-- The publish step of one `pipeline.poll` cycle over the polled events. -/
def publishEvents (procSend actSend : String → Bool) (events : List ProcessEvent) : PublishOutcome :=
  events.foldl (publishEvent procSend actSend) emptyOutcome


/-- One `pipeline.poll` cycle from `pipeline.go`: poll, return the poll
error if any, return immediately on an empty batch, otherwise publish.
Result: (publish outcome, poller after the cycle, returned error). -/
def pipelinePoll (client : Client) (parse : String → Option Int) (now : Int)
    (procSend actSend : String → Bool) (p : Poller) :
    PublishOutcome × Poller × Option String :=
  let r := Poll client parse now p
  match r.err with
  | some e => (emptyOutcome, r.poller, some e)
  | none =>
    if r.events.isEmpty then (emptyOutcome, r.poller, none)
    else (publishEvents procSend actSend r.events, r.poller, none)

/-- One wake-up of the `Run` select loop: either the ticker fired or the
external cancellation signal was observed. -/
inductive LoopEvent where
  | tick
  | cancel
deriving DecidableEq, Repr

/-- Observable outcome of `Pipeline.Run`: a fatal startup error, a clean
stop (with the producer channels closed), or still looping after the
given schedule of wake-ups. -/
inductive RunOutcome where
  | fatal (msg : String)
  | stopped (producerClosed : Bool)
  | running
deriving DecidableEq, Repr

/-- Result of `Pipeline.Run` over a finite schedule of loop wake-ups:
outcome, poller state reached, and number of poll-and-publish cycles
executed. -/
structure RunResult where
  outcome : RunOutcome
  poller : Poller
  cycles : Nat
deriving DecidableEq, Repr

/-- The `for select` loop of `Run`: a cancel wake-up returns after
closing the producer; a tick wake-up runs one poll cycle (its error is
logged and ignored) and continues.  `clients n` gives the remote
responses seen by the n-th cycle. -/
def runLoop (clients : Nat → Client) (parse : String → Option Int) (now : Int)
    (procSend actSend : String → Bool) :
    Poller → Nat → List LoopEvent → RunResult
  | p, n, [] => { outcome := RunOutcome.running, poller := p, cycles := n }
  | p, n, LoopEvent.cancel :: _ =>
    { outcome := RunOutcome.stopped true, poller := p, cycles := n }
  | p, n, LoopEvent.tick :: rest =>
    let r := pipelinePoll (clients n) parse now procSend actSend p
    runLoop clients parse now procSend actSend r.2.1 (n + 1) rest

/-- `Pipeline.Run` from `pipeline.go`: check connectivity (`Ping`) and
fail fatally if unreachable; otherwise run the initial poll cycle (error
logged, ignored) and enter the ticker loop. -/
def Run (clients : Nat → Client) (parse : String → Option Int) (now : Int)
    (procSend actSend : String → Bool) (p : Poller) (steps : List LoopEvent) : RunResult :=
  match (clients 0).ping with
  | some e =>
    { outcome := RunOutcome.fatal ("failed to connect to Fluxnova: " ++ e)
      poller := p
      cycles := 0 }
  | none =>
    let r := pipelinePoll (clients 0) parse now procSend actSend p
    runLoop clients parse now procSend actSend r.2.1 1 steps

/-- External task from `demo/worker/main.go` as decoded from
`fetchAndLock` (the Go variable map is abstracted as name → serialized
value). -/
structure ExternalTask where
  id : String
  workerID : String
  topicName : String
  processInstanceID : String
  processDefinitionID : String
  activityID : String
  activityInstanceID : String
  executionID : String
  Variables : List (String × String)
deriving DecidableEq, Repr

/-- Modelled from the spec: the five topic handlers of
`demo/workflow/activities.go` (absent from the snapshot); each takes the
task (the typed extraction of its input variables is absorbed here) and
returns the serialized result value or a business-logic error. -/
structure Activities where
  analyzeSentiment : ExternalTask → Except String String
  lookupCustomerProfile : ExternalTask → Except String String
  checkChurnSignals : ExternalTask → Except String String
  decideRouting : ExternalTask → Except String String
  generateResponse : ExternalTask → Except String String

/-- The topic subscriptions registered by the worker at startup. -/
def knownTopics : List String :=
  ["analyze-sentiment", "lookup-customer-profile", "check-churn-signals",
   "decide-routing", "generate-response"]

/-- The `switch task.TopicName` of `handleTask`: route to the handler for
the topic, wrap its result as the output variable map (each `{value: v}`
wrapper collapsed to the serialized value), and fail on an unknown topic
with the source's error message. -/
def handleTaskResult (acts : Activities) (task : ExternalTask) :
    Except String (List (String × String)) :=
  if task.topicName = "analyze-sentiment" then
    match acts.analyzeSentiment task with
    | Except.error e => Except.error e
    | Except.ok r => Except.ok [("sentiment", r)]
  else if task.topicName = "lookup-customer-profile" then
    match acts.lookupCustomerProfile task with
    | Except.error e => Except.error e
    | Except.ok r => Except.ok [("customerProfile", r)]
  else if task.topicName = "check-churn-signals" then
    match acts.checkChurnSignals task with
    | Except.error e => Except.error e
    | Except.ok r => Except.ok [("churnSignals", r)]
  else if task.topicName = "decide-routing" then
    match acts.decideRouting task with
    | Except.error e => Except.error e
    | Except.ok r => Except.ok [("routingDecision", r)]
  else if task.topicName = "generate-response" then
    match acts.generateResponse task with
    | Except.error e => Except.error e
    | Except.ok r => Except.ok [("responseDraft", r)]
  else
    Except.error ("unknown topic: " ++ task.topicName)

/-- `completeTask` from `demo/worker/main.go`: POST the completion and
succeed only on HTTP 204 or 200.  `resp taskID` is the engine's response:
`Except.error m` a transport error with message `m`, `Except.ok (st, body)`
a reply with status code and body. -/
def completeTask (resp : String → Except String (Nat × String)) (taskID : String) :
    Except String Unit :=
  match resp taskID with
  | Except.error e => Except.error e
  | Except.ok (st, body) =>
    if st = 204 ∨ st = 200 then Except.ok ()
    else Except.error ("complete failed with status " ++ toString st ++ ": " ++ body)

/-- One report POSTed to the engine by the worker: a completion attempt
(with output variables) or a failure report (message, retries,
retry timeout — the worker always sends retries = 0). -/
inductive Attempt where
  | complete (taskID : String) (vars : List (String × String))
  | failure (taskID : String) (errorMessage : String) (retries : Nat) (retryTimeout : Nat)
deriving DecidableEq, Repr

/-- The per-task body of the worker's main loop: run `handleTask`
(handler switch, then the completion POST) and, when it returns an error,
report the failure via `failTask` with that error message and zero
retries.  The returned list is the sequence of reports POSTed for this
task, in order. -/
def dispatchTask (acts : Activities) (resp : String → Except String (Nat × String))
    (task : ExternalTask) : List Attempt :=
  match handleTaskResult acts task with
  | Except.error e => [Attempt.failure task.id e 0 0]
  | Except.ok result =>
    match completeTask resp task.id with
    | Except.ok _ => [Attempt.complete task.id result]
    | Except.error e => [Attempt.complete task.id result, Attempt.failure task.id e 0 0]

/-- The worker's handling of one fetched batch: tasks are handled
sequentially, each one's reports appended in order. -/
def dispatchBatch (acts : Activities) (resp : String → Except String (Nat × String))
    (tasks : List ExternalTask) : List Attempt :=
  tasks.foldl (fun acc task => acc ++ dispatchTask acts resp task) []


/-- Stand-in for `time.Parse` in concrete witnesses: a finite table of
well-formed start-time strings and their instants. -/
def parseW (s : String) : Option Int :=
  if s = "1" then some 1
  else if s = "2" then some 2
  else if s = "5" then some 5
  else none

/-- Concrete process instance for witnesses. -/
def procOf (i st : String) : HistoricProcessInstance :=
  { id := i, processDefinitionKey := "pd", businessKey := none, state := "ACTIVE"
    startTime := st, endTime := none, durationInMillis := none }

/-- Concrete activity instance for witnesses. -/
def actOf (i pid : String) : HistoricActivityInstance :=
  { id := i, processInstanceID := pid, activityID := "step", activityName := "Step"
    activityType := "serviceTask", executionID := "x1", taskID := none, assignee := none
    startTime := "1", endTime := none, durationInMillis := none, canceled := false }

/-- Witness client: one new process instance, healthy sub-queries. -/
def clientOneW : Client :=
  { getHistoricProcessInstances := fun _ _ => Except.ok [procOf "p1" "5"]
    getHistoricActivityInstances := fun _ => Except.ok []
    getHistoricVariableInstances := fun _ => Except.ok []
    ping := none }

/-- Witness client: two new process instances with increasing starts. -/
def clientTwoW : Client :=
  { getHistoricProcessInstances := fun _ _ => Except.ok [procOf "p1" "1", procOf "p2" "2"]
    getHistoricActivityInstances := fun _ => Except.ok []
    getHistoricVariableInstances := fun _ => Except.ok []
    ping := none }

/-- Witness client: base query healthy, both sub-queries failing. -/
def clientSubFailW : Client :=
  { getHistoricProcessInstances := fun _ _ => Except.ok [procOf "p1" "5"]
    getHistoricActivityInstances := fun _ => Except.error "activity query failed"
    getHistoricVariableInstances := fun _ => Except.error "variable query failed"
    ping := none }

/-- Witness client: idle engine, zero new process instances. -/
def clientIdleW : Client :=
  { getHistoricProcessInstances := fun _ _ => Except.ok []
    getHistoricActivityInstances := fun _ => Except.ok []
    getHistoricVariableInstances := fun _ => Except.ok []
    ping := none }

/-- Witness client: reachable at startup but every history query fails. -/
def clientDownW : Client :=
  { getHistoricProcessInstances := fun _ _ => Except.error "connection reset"
    getHistoricActivityInstances := fun _ => Except.error "connection reset"
    getHistoricVariableInstances := fun _ => Except.error "connection reset"
    ping := none }

/-- Witness client: unreachable at startup. -/
def clientUnreachableW : Client :=
  { getHistoricProcessInstances := fun _ _ => Except.error "connection refused"
    getHistoricActivityInstances := fun _ => Except.error "connection refused"
    getHistoricVariableInstances := fun _ => Except.error "connection refused"
    ping := some "connection refused" }

/-- Concrete event with one activity and a non-empty variable map. -/
def eventVarsW : ProcessEvent :=
  { eventType := "ProcessInstance", processInstanceID := "p1", processDefinition := "pd"
    businessKey := none, state := "ACTIVE", startTime := "1", endTime := none
    durationMillis := none, activities := [actOf "a1" "p1"]
    Variables := some [("customerId", "c-9")], timestamp := 0 }

/-- Concrete event with one activity and an empty variable map. -/
def eventNoVarsW : ProcessEvent :=
  { eventVarsW with Variables := some [] }

/-- Witness task on an unregistered topic. -/
def taskBadW : ExternalTask :=
  { id := "tA", workerID := "customer-service-worker", topicName := "mystery"
    processInstanceID := "p1", processDefinitionID := "pd", activityID := "a"
    activityInstanceID := "ai", executionID := "x", Variables := [] }

/-- Witness task on a registered topic. -/
def taskGoodW : ExternalTask :=
  { taskBadW with id := "tB", topicName := "analyze-sentiment" }

/-- Witness handlers: every activity succeeds with a fixed result. -/
def actsW : Activities :=
  { analyzeSentiment := fun _ => Except.ok "sres"
    lookupCustomerProfile := fun _ => Except.ok "pres"
    checkChurnSignals := fun _ => Except.ok "cres"
    decideRouting := fun _ => Except.ok "rres"
    generateResponse := fun _ => Except.ok "gres" }

/-- Witness engine responses: completion accepted with HTTP 204. -/
def respOkW : String → Except String (Nat × String) := fun _ => Except.ok (204, "")

/-- Witness engine responses: completion rejected with HTTP 500. -/
def respBadW : String → Except String (Nat × String) := fun _ => Except.ok (500, "oops")


theorem wmLE_refl (a : Option Int) : wmLE a a = true := by
  cases a <;> simp [wmLE]

theorem wmLE_trans {a b c : Option Int} (h1 : wmLE a b = true) (h2 : wmLE b c = true) :
    wmLE a c = true := by
  cases a <;> cases b <;> cases c <;> simp_all [wmLE] <;> omega

theorem wmLT_of_wmLT_of_wmLE {a b c : Option Int} (h1 : wmLT a b = true) (h2 : wmLE b c = true) :
    wmLT a c = true := by
  cases a <;> cases b <;> cases c <;> simp_all [wmLT, wmLE] <;> omega

theorem wmLE_wmAdvance (parse : String → Option Int) (wm : Option Int)
    (proc : HistoricProcessInstance) : wmLE wm (wmAdvance parse wm proc) = true := by
  unfold wmAdvance
  cases parse proc.startTime with
  | none => exact wmLE_refl wm
  | some t =>
    cases wm with
    | none => simp [wmLE]
    | some w =>
      by_cases h : w < t <;> simp [h, wmLE] <;> omega

theorem wmLE_foldl_wmAdvance (parse : String → Option Int) :
    ∀ (procs : List HistoricProcessInstance) (wm : Option Int),
      wmLE wm (procs.foldl (wmAdvance parse) wm) = true := by
  intro procs
  induction procs with
  | nil => intro wm; simp [wmLE_refl]
  | cons proc rest ih =>
    intro wm
    simp only [List.foldl_cons]
    exact wmLE_trans (wmLE_wmAdvance parse wm proc) (ih (wmAdvance parse wm proc))

theorem wmLE_some_wmAdvance (parse : String → Option Int) (wm : Option Int)
    (proc : HistoricProcessInstance) (t : Int) (hp : parse proc.startTime = some t) :
    wmLE (some t) (wmAdvance parse wm proc) = true := by
  unfold wmAdvance
  rw [hp]
  cases wm with
  | none => simp [wmLE]
  | some w =>
    by_cases h : w < t <;> simp [h, wmLE] <;> omega

theorem wmLE_some_foldl_of_mem (parse : String → Option Int) :
    ∀ (procs : List HistoricProcessInstance) (wm : Option Int)
      (proc : HistoricProcessInstance) (t : Int),
      proc ∈ procs → parse proc.startTime = some t →
      wmLE (some t) (procs.foldl (wmAdvance parse) wm) = true := by
  intro procs
  induction procs with
  | nil => intro wm proc t hmem; exact absurd hmem (List.not_mem_nil proc)
  | cons head rest ih =>
    intro wm proc t hmem hp
    simp only [List.foldl_cons]
    rcases List.mem_cons.mp hmem with heq | hmem'
    · subst heq
      exact wmLE_trans (wmLE_some_wmAdvance parse wm proc t hp)
        (wmLE_foldl_wmAdvance parse rest (wmAdvance parse wm proc))
    · exact ih (wmAdvance parse wm head) proc t hmem' hp

/-- The `Poll` loop as a fold: events are the per-instance builds in
order, and the final watermark is the fold of the per-instance advance. -/
theorem foldl_pollStep_eq (client : Client) (parse : String → Option Int) (now : Int) :
    ∀ (procs : List HistoricProcessInstance) (s : PollState),
      procs.foldl (pollStep client parse now) s =
        { events := s.events ++ procs.map (buildEvent client now)
          lastPollTime := procs.foldl (wmAdvance parse) s.lastPollTime } := by
  intro procs
  induction procs with
  | nil => intro s; simp
  | cons proc rest ih =>
    intro s
    simp only [List.foldl_cons, List.map_cons]
    rw [ih]
    simp [pollStep, PollState.mk.injEq]

/-- The state after `i` loop iterations holds exactly the events of the
first `i` instances and the watermark folded over those instances: the
watermark is advanced per instance, in step with event construction. -/
theorem pollStates_get? (client : Client) (parse : String → Option Int) (now : Int) :
    ∀ (procs : List HistoricProcessInstance) (s : PollState) (i : Nat), i ≤ procs.length →
      (pollStates client parse now s procs).get? i =
        some { events := s.events ++ (procs.take i).map (buildEvent client now)
               lastPollTime := (procs.take i).foldl (wmAdvance parse) s.lastPollTime } := by
  intro procs
  induction procs with
  | nil =>
    intro s i hi
    cases i with
    | zero => simp [pollStates]
    | succ j => exact absurd hi (by simp)
  | cons proc rest ih =>
    intro s i hi
    cases i with
    | zero => simp [pollStates]
    | succ j =>
      simp only [pollStates, List.get?_cons_succ, List.take_succ_cons, List.map_cons,
        List.foldl_cons]
      rw [ih (pollStep client parse now s proc) j (by simpa using hi)]
      simp [pollStep, PollState.mk.injEq, List.append_assoc]

theorem wmAdvance_eq_maxStep (parse : String → Option Int) (wm : Option Int)
    (proc : HistoricProcessInstance) :
    wmAdvance parse wm proc =
      match parse proc.startTime with
      | none => wm
      | some t => wmMaxStep wm t := by
  unfold wmAdvance wmMaxStep
  cases parse proc.startTime with
  | none => rfl
  | some t =>
    cases wm with
    | none => rfl
    | some w =>
      by_cases h : w < t
      · simp [h, max_eq_right h.le]
      · simp [h, max_eq_left (not_lt.mp h)]

/-- The final watermark of the loop is the running maximum of the old
watermark and the parseable start times of the returned instances. -/
theorem foldl_wmAdvance_eq_maxList (parse : String → Option Int) :
    ∀ (procs : List HistoricProcessInstance) (wm : Option Int),
      procs.foldl (wmAdvance parse) wm =
        (procs.filterMap (fun pr => parse pr.startTime)).foldl wmMaxStep wm := by
  intro procs
  induction procs with
  | nil => intro wm; rfl
  | cons proc rest ih =>
    intro wm
    simp only [List.foldl_cons, List.filterMap_cons]
    rw [wmAdvance_eq_maxStep]
    cases parse proc.startTime with
    | none => exact ih wm
    | some t => simp only [List.foldl_cons]; exact ih (wmMaxStep wm t)
/-- Closed form of the activity loop: the successful activity sends and
the failed activity keys, in order, appended to the accumulator. -/
theorem publishActivities_eq (actSend : String → Bool) (event : ProcessEvent) :
    ∀ (la : List HistoricActivityInstance) (acc : PublishOutcome),
      la.foldl
        (fun acc a =>
          if actSend a.id then
            { acc with actsSent := acc.actsSent ++ [(a.id, activityRecord event a)] }
          else
            { acc with actsFailed := acc.actsFailed ++ [a.id] })
        acc =
      { acc with
        actsSent := acc.actsSent ++
          ((la.filter (fun a => actSend a.id)).map (fun a => (a.id, activityRecord event a)))
        actsFailed := acc.actsFailed ++
          ((la.filter (fun a => !actSend a.id)).map (fun a => a.id)) } := by
  intro la
  induction la with
  | nil => intro acc; simp
  | cons a rest ih =>
    intro acc
    simp only [List.foldl_cons]
    rw [ih]
    by_cases h : actSend a.id <;>
      simp [h, List.filter_cons, List.append_assoc]

/-- Closed form of the whole publish step: process records are sent for
exactly the events whose process send succeeds; activity records are sent
for exactly the send-succeeding activities of those events (the
activities of an event whose process send failed are skipped). -/
theorem publishEvents_eq (procSend actSend : String → Bool) :
    ∀ (events : List ProcessEvent) (acc : PublishOutcome),
      events.foldl (publishEvent procSend actSend) acc =
        { procsSent := acc.procsSent ++
            ((events.filter (fun e => procSend e.processInstanceID)).map
              (fun e => (e.processInstanceID, processRecord e)))
          actsSent := acc.actsSent ++
            (((events.filter (fun e => procSend e.processInstanceID)).map
              (fun e => (e.activities.filter (fun a => actSend a.id)).map
                (fun a => (a.id, activityRecord e a)))).flatten)
          procsFailed := acc.procsFailed ++
            ((events.filter (fun e => !procSend e.processInstanceID)).map
              (fun e => e.processInstanceID))
          actsFailed := acc.actsFailed ++
            (((events.filter (fun e => procSend e.processInstanceID)).map
              (fun e => (e.activities.filter (fun a => !actSend a.id)).map
                (fun a => a.id))).flatten) } := by
  intro events
  induction events with
  | nil => intro acc; simp
  | cons e rest ih =>
    intro acc
    simp only [List.foldl_cons]
    rw [ih]
    unfold publishEvent publishActivities
    by_cases h : procSend e.processInstanceID
    · rw [publishActivities_eq]
      simp [h, List.filter_cons, List.append_assoc]
    · simp [h, List.filter_cons, List.append_assoc]
theorem dispatchBatch_go (acts : Activities) (resp : String → Except String (Nat × String)) :
    ∀ (tasks : List ExternalTask) (acc : List Attempt),
      tasks.foldl (fun acc task => acc ++ dispatchTask acts resp task) acc =
        acc ++ dispatchBatch acts resp tasks := by
  intro tasks
  induction tasks with
  | nil => intro acc; simp [dispatchBatch]
  | cons task rest ih =>
    intro acc
    simp only [List.foldl_cons]
    rw [ih]
    conv_rhs => rw [dispatchBatch]
    simp only [List.foldl_cons, List.nil_append]
    rw [show List.foldl (fun acc task => acc ++ dispatchTask acts resp task)
        (dispatchTask acts resp task) rest =
        dispatchTask acts resp task ++ dispatchBatch acts resp rest from ih _]
    simp [List.append_assoc]

/-- C1: for every sequence of `Poll` calls on one `Poller`, the watermark
after each successful call is ≥ the watermark before it, and is strictly
greater whenever the call returned at least one new process instance
(one whose start time parses and lies strictly after the old watermark). -/
theorem poll_watermark_monotonic (client : Client) (parse : String → Option Int)
    (now : Int) (p : Poller) :
    wmLE p.lastPollTime (Poll client parse now p).poller.lastPollTime = true ∧
    (∀ procs proc t,
      client.getHistoricProcessInstances p.lastPollTime p.batchSize = Except.ok procs →
      proc ∈ procs → parse proc.startTime = some t →
      wmLT p.lastPollTime (some t) = true →
      wmLT p.lastPollTime (Poll client parse now p).poller.lastPollTime = true) := by
  constructor
  · unfold Poll
    cases h : client.getHistoricProcessInstances p.lastPollTime p.batchSize with
    | error e => simp [wmLE_refl]
    | ok procs =>
      by_cases he : procs.isEmpty
      · simp [he, wmLE_refl]
      · simp only [he, Bool.false_eq_true, if_false, foldl_pollStep_eq]
        exact wmLE_foldl_wmAdvance parse procs p.lastPollTime
  · intro procs proc t hq hmem hp hlt
    unfold Poll
    rw [hq]
    cases procs with
    | nil => exact absurd hmem (List.not_mem_nil proc)
    | cons q rest =>
      simp only [List.isEmpty_cons, Bool.false_eq_true, if_false, foldl_pollStep_eq]
      exact wmLT_of_wmLT_of_wmLE hlt
        (wmLE_some_foldl_of_mem parse (q :: rest) p.lastPollTime proc t hmem hp)

theorem poll_watermark_monotonic_witness :
    wmLT (Poller.mk 10 none).lastPollTime
        (Poll clientOneW parseW 0 (Poller.mk 10 none)).poller.lastPollTime = true :=
  (poll_watermark_monotonic clientOneW parseW 0 (Poller.mk 10 none)).2
    [procOf "p1" "5"] (procOf "p1" "5") 5 rfl (List.mem_singleton.mpr rfl)
    (by decide) (by decide)

/-- C3 counterexample: with two returned instances, the watermark is
already advanced after the first loop iteration, while only one of the
two ProcessEvents has been constructed — the advance does not wait until
all events of the cycle are built. -/
theorem poll_watermark_midloop_advance_cex :
    (Poll clientTwoW parseW 0 (Poller.mk 10 none)).err = none ∧
    ¬ (∀ s ∈ pollStates clientTwoW parseW 0 { events := [], lastPollTime := none }
          [procOf "p1" "1", procOf "p2" "2"],
        s.lastPollTime ≠ none → s.events.length = 2) := by
  constructor
  · decide
  · decide

/-- C3 (amended): the watermark is advanced incrementally inside the
loop — after `i` iterations it is the fold of the per-instance advance
over the first `i` instances, in step with the `i` events constructed so
far — and after a successful call it equals the running maximum of the
old watermark and the parseable start times observed; a call that
returns an error leaves the poller unchanged. -/
theorem poll_watermark_advance_characterization (client : Client)
    (parse : String → Option Int) (now : Int) (p : Poller) :
    (∀ e, (Poll client parse now p).err = some e → (Poll client parse now p).poller = p) ∧
    (∀ procs,
      client.getHistoricProcessInstances p.lastPollTime p.batchSize = Except.ok procs →
      (Poll client parse now p).err = none ∧
      (Poll client parse now p).poller.lastPollTime =
        (procs.filterMap (fun pr => parse pr.startTime)).foldl wmMaxStep p.lastPollTime ∧
      (∀ i, i ≤ procs.length →
        (pollStates client parse now { events := [], lastPollTime := p.lastPollTime } procs).get? i =
          some { events := (procs.take i).map (buildEvent client now)
                 lastPollTime := (procs.take i).foldl (wmAdvance parse) p.lastPollTime })) := by
  constructor
  · intro e he
    unfold Poll at he ⊢
    cases h : client.getHistoricProcessInstances p.lastPollTime p.batchSize with
    | error e2 => rfl
    | ok procs =>
      rw [h] at he
      by_cases hem : procs.isEmpty <;> simp [hem] at he
  · intro procs hq
    refine ⟨?_, ?_, ?_⟩
    · unfold Poll
      rw [hq]
      by_cases hem : procs.isEmpty <;> simp [hem]
    · unfold Poll
      rw [hq]
      by_cases hem : procs.isEmpty
      · rw [List.isEmpty_iff] at hem
        subst hem
        simp
      · simp only [hem, Bool.false_eq_true, if_false, foldl_pollStep_eq]
        exact foldl_wmAdvance_eq_maxList parse procs p.lastPollTime
    · intro i hi
      rw [pollStates_get? client parse now procs _ i hi]
      simp

theorem poll_watermark_advance_characterization_witness :
    (Poll clientTwoW parseW 0 (Poller.mk 10 none)).poller.lastPollTime = some 2 := by
  have h := (poll_watermark_advance_characterization clientTwoW parseW 0 (Poller.mk 10 none)).2
    [procOf "p1" "1", procOf "p2" "2"] rfl
  rw [h.2.1]
  decide

/-- C4: a process instance whose activity sub-query fails (while the base
batch query succeeded) is still emitted: its event is in the returned
sequence with all base fields copied and an empty activity list, its
variable set is absent when the variable sub-query fails, and the cycle
does not abort with the sub-query's error. -/
theorem poll_partial_subquery_resilience (client : Client) (parse : String → Option Int)
    (now : Int) (p : Poller) (procs : List HistoricProcessInstance)
    (proc : HistoricProcessInstance)
    (hq : client.getHistoricProcessInstances p.lastPollTime p.batchSize = Except.ok procs)
    (hmem : proc ∈ procs) :
    (Poll client parse now p).err = none ∧
    buildEvent client now proc ∈ (Poll client parse now p).events ∧
    (buildEvent client now proc).processInstanceID = proc.id ∧
    (buildEvent client now proc).processDefinition = proc.processDefinitionKey ∧
    (buildEvent client now proc).businessKey = proc.businessKey ∧
    (buildEvent client now proc).state = proc.state ∧
    (buildEvent client now proc).startTime = proc.startTime ∧
    (buildEvent client now proc).endTime = proc.endTime ∧
    (buildEvent client now proc).durationMillis = proc.durationInMillis ∧
    (∀ e, client.getHistoricActivityInstances proc.id = Except.error e →
      (buildEvent client now proc).activities = []) ∧
    (∀ e, client.getHistoricVariableInstances proc.id = Except.error e →
      (buildEvent client now proc).Variables = none) := by
  have hne : procs ≠ [] := List.ne_nil_of_mem hmem
  refine ⟨?_, ?_, rfl, rfl, rfl, rfl, rfl, rfl, rfl, ?_, ?_⟩
  · unfold Poll
    rw [hq]
    simp [List.isEmpty_iff, hne]
  · unfold Poll
    rw [hq]
    cases procs with
    | nil => exact absurd hmem (List.not_mem_nil proc)
    | cons q rest =>
      simp only [List.isEmpty_cons, Bool.false_eq_true, if_false, foldl_pollStep_eq]
      exact List.mem_map_of_mem (buildEvent client now) hmem
  · intro e he
    simp [buildEvent, he]
  · intro e he
    simp [buildEvent, he]

theorem poll_partial_subquery_resilience_witness :
    (Poll clientSubFailW parseW 0 (Poller.mk 10 none)).err = none ∧
    (buildEvent clientSubFailW 0 (procOf "p1" "5")).activities = [] ∧
    (buildEvent clientSubFailW 0 (procOf "p1" "5")).Variables = none := by
  have h := poll_partial_subquery_resilience clientSubFailW parseW 0 (Poller.mk 10 none)
    [procOf "p1" "5"] (procOf "p1" "5") rfl (List.mem_singleton.mpr rfl)
  exact ⟨h.1, h.2.2.2.2.2.2.2.2.2.1 "activity query failed" rfl,
    h.2.2.2.2.2.2.2.2.2.2 "variable query failed" rfl⟩

/-- C6: a `Poll` call whose history query returns zero process instances
returns an empty sequence without error and leaves the poller (hence the
watermark) unchanged. -/
theorem poll_idle_noop (client : Client) (parse : String → Option Int) (now : Int)
    (p : Poller)
    (h : client.getHistoricProcessInstances p.lastPollTime p.batchSize = Except.ok []) :
    Poll client parse now p = { events := [], poller := p, err := none } := by
  unfold Poll
  rw [h]
  rfl

theorem poll_idle_noop_witness :
    Poll clientIdleW parseW 0 (Poller.mk 10 (some 7)) =
      { events := [], poller := Poller.mk 10 (some 7), err := none } :=
  poll_idle_noop clientIdleW parseW 0 (Poller.mk 10 (some 7)) rfl

/-- C2 counterexample: when the process-record send for an event fails,
`pipeline.poll` logs and `continue`s, so that event's activity records
are dropped — not sent and not even attempted — although the activity
send itself would have succeeded. -/
theorem publish_process_failure_drops_activities_cex :
    (publishEvents (fun _ => false) (fun _ => true) [eventVarsW]).actsSent = [] ∧
    (publishEvents (fun _ => false) (fun _ => true) [eventVarsW]).actsFailed = [] ∧
    (publishEvents (fun _ => false) (fun _ => true) [eventVarsW]).procsFailed = ["p1"] ∧
    eventVarsW.activities = [actOf "a1" "p1"] := by
  decide

/-- C2 (amended): within one publish step, a failed activity-record send
does not drop the parent process record (already sent first) nor the
sibling activity records nor any other event's records, and a failed
process-record send does not drop other events' records — but it does
skip that event's own activity records.  Stated as the closed form of the
publish loop: the sends of each record depend only on that record's own
key and, for activity records, on the parent's process send. -/
theorem publish_failure_isolation (procSend actSend : String → Bool)
    (events : List ProcessEvent) :
    (publishEvents procSend actSend events).procsSent =
      (events.filter (fun e => procSend e.processInstanceID)).map
        (fun e => (e.processInstanceID, processRecord e)) ∧
    (publishEvents procSend actSend events).actsSent =
      ((events.filter (fun e => procSend e.processInstanceID)).map
        (fun e => (e.activities.filter (fun a => actSend a.id)).map
          (fun a => (a.id, activityRecord e a)))).flatten ∧
    (publishEvents procSend actSend events).procsFailed =
      (events.filter (fun e => !procSend e.processInstanceID)).map
        (fun e => e.processInstanceID) ∧
    (publishEvents procSend actSend events).actsFailed =
      ((events.filter (fun e => procSend e.processInstanceID)).map
        (fun e => (e.activities.filter (fun a => !actSend a.id)).map
          (fun a => a.id))).flatten := by
  unfold publishEvents
  rw [publishEvents_eq]
  simp [emptyOutcome]

/-- C5 counterexample: an activity record emitted for a parent whose
variable map is empty carries no `process_variables` field at all — the
serialized snapshot is attached only when the parent's variable map is
non-empty. -/
theorem publish_record_vars_cex :
    (publishEvents (fun _ => true) (fun _ => true) [eventNoVarsW]).actsSent =
      [("a1", activityRecord eventNoVarsW (actOf "a1" "p1"))] ∧
    recLookup (activityRecord eventNoVarsW (actOf "a1" "p1")) "process_variables" = none := by
  decide

/-- C5 (amended): with the transport up, the publish step emits one
process-level record per event keyed by the process instance id and one
activity-level record per activity keyed by the activity instance id;
every record carries `_valid_from` equal to the respective entity's
start time, and an activity record carries the serialized snapshot of
the parent's variable mapping exactly when that mapping is non-empty
(the field is omitted for an empty or absent mapping). -/
theorem publish_record_shape (events : List ProcessEvent) (e : ProcessEvent)
    (a : HistoricActivityInstance) :
    (publishEvents (fun _ => true) (fun _ => true) events).procsSent =
      events.map (fun ev => (ev.processInstanceID, processRecord ev)) ∧
    (publishEvents (fun _ => true) (fun _ => true) events).actsSent =
      (events.map (fun ev => ev.activities.map
        (fun ac => (ac.id, activityRecord ev ac)))).flatten ∧
    recLookup (processRecord e) "_id" = some (RVal.s e.processInstanceID) ∧
    recLookup (processRecord e) "_valid_from" = some (RVal.s e.startTime) ∧
    recLookup (activityRecord e a) "_id" = some (RVal.s a.id) ∧
    recLookup (activityRecord e a) "_valid_from" = some (RVal.s a.startTime) ∧
    recLookup (activityRecord e a) "process_variables" =
      (if 0 < varsLen e.Variables then
        some (RVal.s (serializeVars (e.Variables.getD []))) else none) := by
  refine ⟨?_, ?_, rfl, rfl, ?_, ?_, ?_⟩
  · unfold publishEvents
    rw [publishEvents_eq]
    simp [emptyOutcome]
  · unfold publishEvents
    rw [publishEvents_eq]
    simp [emptyOutcome]
  · simp only [activityRecord]
    split <;> rfl
  · simp only [activityRecord]
    split <;> rfl
  · simp only [activityRecord]
    split <;> rfl

theorem dispatchBatch_cons (acts : Activities) (resp : String → Except String (Nat × String))
    (t : ExternalTask) (l : List ExternalTask) :
    dispatchBatch acts resp (t :: l) =
      dispatchTask acts resp t ++ dispatchBatch acts resp l := by
  unfold dispatchBatch
  rw [List.foldl_cons]
  simpa using dispatchBatch_go acts resp l (dispatchTask acts resp t)

theorem dispatchBatch_append (acts : Activities) (resp : String → Except String (Nat × String))
    (l1 l2 : List ExternalTask) :
    dispatchBatch acts resp (l1 ++ l2) =
      dispatchBatch acts resp l1 ++ dispatchBatch acts resp l2 := by
  unfold dispatchBatch
  rw [List.foldl_append]
  exact dispatchBatch_go acts resp l2 _

/-- C7: in each fetched batch every task is handled, its reports are
exactly its own `dispatchTask` output independently of the neighbouring
tasks, a task whose handler switch errors is reported to the engine as a
failure carrying the error message and retries = 0, and a task whose
topic has no registered handler errors with the source's unknown-topic
message (hence is reported the same way, not crashing the loop). -/
theorem worker_failure_isolation (acts : Activities)
    (resp : String → Except String (Nat × String)) :
    (∀ pre task post,
      dispatchBatch acts resp (pre ++ task :: post) =
        dispatchBatch acts resp pre ++ dispatchTask acts resp task ++
          dispatchBatch acts resp post) ∧
    (∀ task e, handleTaskResult acts task = Except.error e →
      dispatchTask acts resp task = [Attempt.failure task.id e 0 0]) ∧
    (∀ task, task.topicName ∉ knownTopics →
      handleTaskResult acts task = Except.error ("unknown topic: " ++ task.topicName)) := by
  refine ⟨?_, ?_, ?_⟩
  · intro pre task post
    rw [dispatchBatch_append, dispatchBatch_cons, List.append_assoc]
  · intro task e h
    simp [dispatchTask, h]
  · intro task h
    simp only [knownTopics, List.mem_cons, List.not_mem_nil, or_false] at h
    push_neg at h
    obtain ⟨h1, h2, h3, h4, h5⟩ := h
    simp [handleTaskResult, h1, h2, h3, h4, h5]

theorem worker_failure_isolation_witness :
    dispatchTask actsW respOkW taskBadW =
      [Attempt.failure taskBadW.id ("unknown topic: " ++ taskBadW.topicName) 0 0] :=
  (worker_failure_isolation actsW respOkW).2.1 taskBadW
    ("unknown topic: " ++ taskBadW.topicName)
    ((worker_failure_isolation actsW respOkW).2.2 taskBadW (by decide))

/-- C10: a task whose handler switch succeeds but whose completion POST
fails — a transport error, or a reply whose status is neither 204 nor
200 — is subsequently reported to the engine as a failure carrying the
completion error's message and retries = 0; the completion is attempted
exactly once, never retried. -/
theorem worker_complete_failure_becomes_failure_report (acts : Activities)
    (resp : String → Except String (Nat × String)) :
    (∀ task result e, handleTaskResult acts task = Except.ok result →
      completeTask resp task.id = Except.error e →
      dispatchTask acts resp task =
        [Attempt.complete task.id result, Attempt.failure task.id e 0 0]) ∧
    (∀ taskID m, resp taskID = Except.error m →
      completeTask resp taskID = Except.error m) ∧
    (∀ taskID st body, resp taskID = Except.ok (st, body) → st ≠ 200 → st ≠ 204 →
      completeTask resp taskID =
        Except.error ("complete failed with status " ++ toString st ++ ": " ++ body)) := by
  refine ⟨?_, ?_, ?_⟩
  · intro task result e h1 h2
    simp [dispatchTask, h1, h2]
  · intro taskID m h
    simp [completeTask, h]
  · intro taskID st body hr h200 h204
    have hc : ¬ (st = 204 ∨ st = 200) := fun hc => hc.elim h204 h200
    simp [completeTask, hr, hc]

theorem worker_complete_failure_becomes_failure_report_witness :
    dispatchTask actsW respBadW taskGoodW =
      [Attempt.complete taskGoodW.id [("sentiment", "sres")],
       Attempt.failure taskGoodW.id
         ("complete failed with status " ++ toString 500 ++ ": " ++ "oops") 0 0] :=
  (worker_complete_failure_becomes_failure_report actsW respBadW).1 taskGoodW
    [("sentiment", "sres")] _ rfl
    ((worker_complete_failure_becomes_failure_report actsW respBadW).2.2
      taskGoodW.id 500 "oops" rfl (by decide) (by decide))

/-- C8: once the startup connectivity check has succeeded, no poll-cycle
error ever terminates `Run` — the theorem holds for every `clients`
schedule, including ones whose every query fails — and the loop runs
until the cancellation signal appears in the schedule, at which point it
stops having closed the producer; with no cancellation it is still
running after any finite schedule. -/
theorem run_poll_errors_never_terminate (clients : Nat → Client)
    (parse : String → Option Int) (now : Int) (procSend actSend : String → Bool)
    (p : Poller) (steps : List LoopEvent) (hping : (clients 0).ping = none) :
    (Run clients parse now procSend actSend p steps).outcome =
      (if LoopEvent.cancel ∈ steps then RunOutcome.stopped true
       else RunOutcome.running) := by
  unfold Run
  rw [hping]
  suffices h : ∀ (steps : List LoopEvent) (q : Poller) (n : Nat),
      (runLoop clients parse now procSend actSend q n steps).outcome =
        (if LoopEvent.cancel ∈ steps then RunOutcome.stopped true
         else RunOutcome.running) by
    exact h steps _ 1
  intro steps
  induction steps with
  | nil => intro q n; simp [runLoop]
  | cons s rest ih =>
    intro q n
    cases s with
    | cancel => simp [runLoop]
    | tick => simp [runLoop, ih]

theorem run_poll_errors_never_terminate_witness :
    (Run (fun _ => clientDownW) parseW 0 (fun _ => true) (fun _ => true)
      (Poller.mk 10 none) [LoopEvent.tick, LoopEvent.tick, LoopEvent.cancel]).outcome =
      RunOutcome.stopped true := by
  have h := run_poll_errors_never_terminate (fun _ => clientDownW) parseW 0
    (fun _ => true) (fun _ => true) (Poller.mk 10 none)
    [LoopEvent.tick, LoopEvent.tick, LoopEvent.cancel] rfl
  rw [h]
  decide

/-- C9: when the startup connectivity check fails, `Run` returns the
wrapped connection error with zero poll-and-publish cycles executed and
the poller untouched. -/
theorem run_fatal_startup (clients : Nat → Client) (parse : String → Option Int)
    (now : Int) (procSend actSend : String → Bool) (p : Poller)
    (steps : List LoopEvent) (e : String) (h : (clients 0).ping = some e) :
    Run clients parse now procSend actSend p steps =
      { outcome := RunOutcome.fatal ("failed to connect to Fluxnova: " ++ e)
        poller := p
        cycles := 0 } := by
  unfold Run
  rw [h]

theorem run_fatal_startup_witness :
    Run (fun _ => clientUnreachableW) parseW 0 (fun _ => true) (fun _ => true)
      (Poller.mk 10 none) [LoopEvent.tick] =
      { outcome := RunOutcome.fatal ("failed to connect to Fluxnova: " ++ "connection refused")
        poller := Poller.mk 10 none
        cycles := 0 } :=
  run_fatal_startup (fun _ => clientUnreachableW) parseW 0 (fun _ => true) (fun _ => true)
    (Poller.mk 10 none) [LoopEvent.tick] "connection refused" rfl
